import Mathlib

/-!
Shallow embedding of the mp3cat repository's core (package `mp3lib` and the
merge driver in `mp3cat.go`), together with theorems checking the
natural-language specification against it.

Byte values are modelled as `Nat` (Go `byte` values are 0..255; every bit
operation below masks its argument, so the definitions agree with Go on that
range).  Go `uint32` arithmetic is modelled as `Nat` arithmetic reduced
`% 2^32`.  Go code that can panic (out-of-range slice indexing) is modelled
in an `Option` layer: `none` stands for a runtime panic.
-/

namespace Mp3Lib

/-! ### Enumerations (mp3lib.go lines 24-48) -/

def MPEGVersion2_5 : Nat := 0
def MPEGVersionReserved : Nat := 1
def MPEGVersion2 : Nat := 2
def MPEGVersion1 : Nat := 3

def MPEGLayerReserved : Nat := 0
def MPEGLayerIII : Nat := 1
def MPEGLayerII : Nat := 2
def MPEGLayerI : Nat := 3

def Stereo : Nat := 0
def JointStereo : Nat := 1
def DualChannel : Nat := 2
def Mono : Nat := 3

/-! ### Bit-rate and sampling-rate tables (mp3lib.go lines 51-63) -/

def v1l1_br : List Nat := [0, 32, 64, 96, 128, 160, 192, 224, 256, 288, 320, 352, 384, 416, 448]
def v1l2_br : List Nat := [0, 32, 48, 56, 64, 80, 96, 112, 128, 160, 192, 224, 256, 320, 384]
def v1l3_br : List Nat := [0, 32, 40, 48, 56, 64, 80, 96, 112, 128, 160, 192, 224, 256, 320]
def v2l1_br : List Nat := [0, 32, 48, 56, 64, 80, 96, 112, 128, 144, 160, 176, 192, 224, 256]
def v2l2_br : List Nat := [0, 8, 16, 24, 32, 40, 48, 56, 64, 80, 96, 112, 128, 144, 160]
def v2l3_br : List Nat := [0, 8, 16, 24, 32, 40, 48, 56, 64, 80, 96, 112, 128, 144, 160]

def v1_sr : List Nat := [44100, 48000, 32000]
def v2_sr : List Nat := [22050, 24000, 16000]
def v25_sr : List Nat := [11025, 12000, 8000]

/-! ### Mp3Frame (mp3lib.go lines 66-83) -/

structure Mp3Frame where
  mpegVersion : Nat
  mpegLayer : Nat
  crcProtection : Bool
  bitRate : Nat
  samplingRate : Nat
  paddingBit : Bool
  privateBit : Bool
  channelMode : Nat
  modeExtension : Nat
  copyrightBit : Bool
  originalBit : Bool
  emphasis : Nat
  sampleCount : Nat
  frameLength : Nat
  rawBytes : List Nat
  deriving Repr, DecidableEq

instance : Inhabited Mp3Frame :=
  ⟨⟨0, 0, false, 0, 0, false, false, 0, 0, false, false, 0, 0, 0, []⟩⟩

/-! ### Header-field extraction (parseHeader, mp3lib.go lines 214-291)

`b1 b2 b3` are `header[1]`, `header[2]`, `header[3]`; `parseHeader` never
reads `header[0]` (the sync check lives in `NextObject`). -/

def hdrVersion (b1 : Nat) : Nat := (b1 &&& 0x18) >>> 3
def hdrLayer (b1 : Nat) : Nat := (b1 &&& 0x06) >>> 1
def hdrCrc (b1 : Nat) : Bool := (b1 &&& 0x01) == 0
def hdrBrIdx (b2 : Nat) : Nat := (b2 &&& 0xF0) >>> 4
def hdrSrIdx (b2 : Nat) : Nat := (b2 &&& 0x0C) >>> 2
def hdrPad (b2 : Nat) : Bool := (b2 &&& 0x02) == 0x02
def hdrPriv (b2 : Nat) : Bool := (b2 &&& 0x01) == 0x01
def hdrChan (b3 : Nat) : Nat := (b3 &&& 0xC0) >>> 6
def hdrModeExt (b3 : Nat) : Nat := (b3 &&& 0x30) >>> 4
def hdrCopy (b3 : Nat) : Bool := (b3 &&& 0x08) == 0x08
def hdrOrig (b3 : Nat) : Bool := (b3 &&& 0x04) == 0x04
def hdrEmph (b3 : Nat) : Nat := b3 &&& 0x03

/-- Bit-rate lookup (mp3lib.go lines 238-250).  `none` models an
out-of-range Go slice index (a runtime panic); the Go `switch` with no
matching case leaves `BitRate` at its zero value, hence `some 0`. -/
def lookupBitRate (version layer idx : Nat) : Option Nat :=
  if version = MPEGVersion1 then
    if layer = MPEGLayerI then (v1l1_br.get? idx).map (fun x => x * 1000)
    else if layer = MPEGLayerII then (v1l2_br.get? idx).map (fun x => x * 1000)
    else if layer = MPEGLayerIII then (v1l3_br.get? idx).map (fun x => x * 1000)
    else some 0
  else
    if layer = MPEGLayerI then (v2l1_br.get? idx).map (fun x => x * 1000)
    else if layer = MPEGLayerII then (v2l2_br.get? idx).map (fun x => x * 1000)
    else if layer = MPEGLayerIII then (v2l3_br.get? idx).map (fun x => x * 1000)
    else some 0

/-- Sampling-rate lookup (mp3lib.go lines 259-263). -/
def lookupSamplingRate (version idx : Nat) : Option Nat :=
  if version = MPEGVersion1 then v1_sr.get? idx
  else if version = MPEGVersion2 then v2_sr.get? idx
  else if version = MPEGVersion2_5 then v25_sr.get? idx
  else some 0

/-- Sample count per frame (mp3lib.go lines 293-305). -/
def sampleCountOf (version layer : Nat) : Nat :=
  if version = MPEGVersion1 then
    if layer = MPEGLayerI then 384
    else if layer = MPEGLayerII then 1152
    else if layer = MPEGLayerIII then 1152
    else 0
  else
    if layer = MPEGLayerI then 384
    else if layer = MPEGLayerII then 1152
    else if layer = MPEGLayerIII then 576
    else 0

/-- Padding slot (mp3lib.go lines 309-317). -/
def paddingOf (layer : Nat) (paddingBit : Bool) : Nat :=
  if paddingBit then (if layer = MPEGLayerI then 4 else 1) else 0

/-- Frame length in bytes, computed in the source's exact order
(mp3lib.go lines 332-333). -/
def frameLenOf (version layer brIdx srIdx : Nat) (pad : Bool) : Nat :=
  (sampleCountOf version layer / 8) * ((lookupBitRate version layer brIdx).getD 0)
    / ((lookupSamplingRate version srIdx).getD 0) + paddingOf layer pad

/-- The frame record produced by a successful `parseHeader` run
(`RawBytes` is filled in later by `NextObject`). -/
def acceptFrame (b1 b2 b3 : Nat) : Mp3Frame :=
  { mpegVersion := hdrVersion b1
    mpegLayer := hdrLayer b1
    crcProtection := hdrCrc b1
    bitRate := (lookupBitRate (hdrVersion b1) (hdrLayer b1) (hdrBrIdx b2)).getD 0
    samplingRate := (lookupSamplingRate (hdrVersion b1) (hdrSrIdx b2)).getD 0
    paddingBit := hdrPad b2
    privateBit := hdrPriv b2
    channelMode := hdrChan b3
    modeExtension := hdrModeExt b3
    copyrightBit := hdrCopy b3
    originalBit := hdrOrig b3
    emphasis := hdrEmph b3
    sampleCount := sampleCountOf (hdrVersion b1) (hdrLayer b1)
    frameLength := frameLenOf (hdrVersion b1) (hdrLayer b1) (hdrBrIdx b2) (hdrSrIdx b2) (hdrPad b2)
    rawBytes := [] }

/-- `parseHeader` (mp3lib.go lines 214-336) at the panic-aware level:
`none` models a Go runtime panic (an out-of-range table access),
`some none` models the function returning `false` (header rejected),
`some (some f)` models success. -/
def parseHeaderP (b1 b2 b3 : Nat) : Option (Option Mp3Frame) :=
  if hdrVersion b1 = MPEGVersionReserved then some none else
  if hdrLayer b1 = MPEGLayerReserved then some none else
  if hdrBrIdx b2 = 0 ∨ hdrBrIdx b2 = 15 then some none else
  match lookupBitRate (hdrVersion b1) (hdrLayer b1) (hdrBrIdx b2) with
  | none => none
  | some _ =>
    if hdrSrIdx b2 = 3 then some none else
    match lookupSamplingRate (hdrVersion b1) (hdrSrIdx b2) with
    | none => none
    | some _ =>
      if hdrChan b3 ≠ JointStereo ∧ hdrModeExt b3 ≠ 0 then some none else
      if hdrEmph b3 = 2 then some none else
      some (some (acceptFrame b1 b2 b3))

/-- `parseHeader` as seen by a caller that does not panic. -/
def parseHeader (b1 b2 b3 : Nat) : Option Mp3Frame :=
  (parseHeaderP b1 b2 b3).join

/-! ### VBR signature detection (mp3lib.go lines 339-391) -/

/-- `getSideInfoSize` (mp3lib.go lines 341-360). -/
def getSideInfoSize (f : Mp3Frame) : Nat :=
  if f.mpegLayer = MPEGLayerIII then
    if f.mpegVersion = MPEGVersion1 then
      if f.channelMode = Mono then 17 else 32
    else
      if f.channelMode = Mono then 9 else 17
  else 0

/-- Go slice expression `l[lo:hi]`: `none` models the runtime panic raised
when the bounds fall outside the slice. -/
def goSlice (l : List Nat) (lo hi : Nat) : Option (List Nat) :=
  if lo ≤ hi ∧ hi ≤ l.length then some ((l.drop lo).take (hi - lo)) else none

def xingId : List Nat := [88, 105, 110, 103]
def infoId : List Nat := [73, 110, 102, 111]
def vbriId : List Nat := [86, 66, 82, 73]

/-- `IsXingHeader` (mp3lib.go lines 364-376); `none` models the panic on a
frame whose `RawBytes` is shorter than `offset + 4`. -/
def isXingHeaderP (f : Mp3Frame) : Option Bool :=
  match goSlice f.rawBytes (4 + getSideInfoSize f) (4 + getSideInfoSize f + 4) with
  | none => none
  | some id => some (id = xingId ∨ id = infoId : Bool)

/-- `IsVbriHeader` (mp3lib.go lines 380-391); `none` models the panic on a
frame whose `RawBytes` is shorter than 40. -/
def isVbriHeaderP (f : Mp3Frame) : Option Bool :=
  match goSlice f.rawBytes 36 (36 + 4) with
  | none => none
  | some id => some (id = vbriId : Bool)

/-- `IsXingHeader(frame) || IsVbriHeader(frame)` with Go's short-circuit
evaluation, at the panic-aware level (mp3cat.go line 154). -/
def isVBRHeader (f : Mp3Frame) : Option Bool :=
  match isXingHeaderP f with
  | none => none
  | some true => some true
  | some false => isVbriHeaderP f

/-! ### Xing header synthesis (mp3lib.go lines 396-424) -/

/-- Go's `copy(l[i:], bs)` clipped at `l`'s length: overwrites
`l[i..i+bs.length)` (`List.set` past the end is a no-op, matching `copy`'s
truncation). -/
def writeBytesAt (l : List Nat) (i : Nat) : List Nat → List Nat
  | [] => l
  | b :: bs => writeBytesAt (l.set i b) (i + 1) bs

/-- `binary.BigEndian.PutUint32`: the four big-endian bytes of `n`
truncated to 32 bits. -/
def be32 (n : Nat) : List Nat :=
  [(n >>> 24) % 256, (n >>> 16) % 256, (n >>> 8) % 256, n % 256]

/-- `NewXingHeader` (mp3lib.go lines 396-424) at the panic-aware level.
Each `none` check models a Go slice/index expression going out of range:
`template.RawBytes[:4]`, `RawBytes[offset:offset+4]`, `RawBytes[offset+7]`,
`RawBytes[offset+8:offset+12]`, `RawBytes[offset+12:offset+16]`. -/
def newXingHeaderP (template : Mp3Frame) (totalFrames totalBytes : Nat) : Option Mp3Frame :=
  if template.rawBytes.length < 4 then none else
  let raw0 := List.replicate template.frameLength 0
  let raw1 := writeBytesAt raw0 0 (template.rawBytes.take 4)
  let offset := 4 + getSideInfoSize template
  if template.frameLength < offset + 4 then none else
  let raw2 := writeBytesAt raw1 offset xingId
  if template.frameLength ≤ offset + 7 then none else
  let raw3 := raw2.set (offset + 7) 3
  if template.frameLength < offset + 12 then none else
  let raw4 := writeBytesAt raw3 (offset + 8) (be32 totalFrames)
  if template.frameLength < offset + 16 then none else
  let raw5 := writeBytesAt raw4 (offset + 12) (be32 totalBytes)
  some { template with rawBytes := raw5 }

/-! ### Stream scanning (mp3lib.go lines 98-208)

The byte source is a `List Nat`; a scan returns the recognised object and
the unread remainder of the stream. -/

inductive StreamObj where
  | frame (f : Mp3Frame)
  | id3v1 (raw : List Nat)
  | id3v2 (raw : List Nat)
  deriving Repr, DecidableEq

/-- Outcome of examining one 4-byte window (`NextObject`'s loop body):
yield an object, stop (truncated stream mid-object, `NextObject`
returns nil), or shift the window one byte forward. -/
inductive ScanStep where
  | yield (o : StreamObj) (rest : List Nat)
  | stop
  | shift
  deriving Repr, DecidableEq

/-- The declared length of an ID3v2 tag whose 10-byte header starts the
stream: the four size bytes at positions 6..9 combined exactly as in
mp3lib.go lines 161-165. -/
def id3v2DeclaredLen (s : List Nat) : Nat :=
  (s.getD 6 0) <<< 21 ||| (s.getD 7 0) <<< 14 ||| (s.getD 8 0) <<< 7 ||| s.getD 9 0

/-- One iteration of `NextObject`'s loop (mp3lib.go lines 134-207) at a
window `b0 b1 b2 b3`; `s` is the whole remaining stream (window included). -/
def scanStepAt (b0 b1 b2 b3 : Nat) (s : List Nat) : ScanStep :=
  if b0 = 84 ∧ b1 = 65 ∧ b2 = 71 then
    if 128 ≤ s.length then .yield (.id3v1 (s.take 128)) (s.drop 128) else .stop
  else if b0 = 73 ∧ b1 = 68 ∧ b2 = 51 then
    if 10 ≤ s.length then
      if 10 + id3v2DeclaredLen s ≤ s.length then
        .yield (.id3v2 (s.take (10 + id3v2DeclaredLen s))) (s.drop (10 + id3v2DeclaredLen s))
      else .stop
    else .stop
  else if b0 = 0xFF ∧ b1 &&& 0xE0 = 0xE0 then
    match parseHeader b1 b2 b3 with
    | some fr =>
      if fr.frameLength ≤ s.length then
        .yield (.frame { fr with rawBytes := s.take fr.frameLength }) (s.drop fr.frameLength)
      else .stop
    | none => .shift
  else .shift

/-- `NextObject` (mp3lib.go lines 122-208): returns the next recognised
object and the unread remainder, or `none` at end of stream. -/
def nextObject : List Nat → Option (StreamObj × List Nat)
  | b0 :: b1 :: b2 :: b3 :: rest =>
    match scanStepAt b0 b1 b2 b3 (b0 :: b1 :: b2 :: b3 :: rest) with
    | .yield o r => some (o, r)
    | .stop => none
    | .shift => nextObject (b1 :: b2 :: b3 :: rest)
  | _ => none

end Mp3Lib

namespace Mp3Cat

open Mp3Lib

/-! ### The merge loop (mp3cat.go lines 96-193)

An input file is abstracted as the list of frames `NextFrame` decodes from
it, in order; the engine's observable state is the accumulator plus the
sequence of byte chunks written to the output file. -/

/-- Go `uint32` reduction. -/
def u32 (n : Nat) : Nat := n % 4294967296

structure MergeState where
  totalFrames : Nat
  totalBytes : Nat
  firstBitRate : Nat
  isVBR : Bool
  output : List (List Nat)
  deriving Repr, DecidableEq

def initialMergeState : MergeState :=
  { totalFrames := 0, totalBytes := 0, firstBitRate := 0, isVBR := false, output := [] }

/-- The body of the frame loop for a retained frame
(mp3cat.go lines 159-174): update the bitrate baseline / VBR flag, write
the frame's bytes, bump the counters. -/
def writeFrame (s : MergeState) (f : Mp3Frame) : MergeState :=
  { s with
    firstBitRate := if s.firstBitRate = 0 then f.bitRate else s.firstBitRate
    isVBR := if s.firstBitRate = 0 then s.isVBR
             else if f.bitRate ≠ s.firstBitRate then true else s.isVBR
    output := s.output ++ [f.rawBytes]
    totalFrames := u32 (s.totalFrames + 1)
    totalBytes := u32 (s.totalBytes + f.rawBytes.length) }

/-- The per-input frame loop (mp3cat.go lines 145-175).  `isFirst` is the
`isFirstFrame` flag; `none` models the program panicking inside
`IsXingHeader`/`IsVbriHeader` on the first frame. -/
def processFrames (s : MergeState) : Bool → List Mp3Frame → Option MergeState
  | _, [] => some s
  | true, f :: fs =>
    match isVBRHeader f with
    | none => none
    | some true => processFrames s false fs
    | some false => processFrames (writeFrame s f) false fs
  | false, f :: fs => processFrames (writeFrame s f) false fs

/-- Processing one input file (mp3cat.go lines 143-175). -/
def processInput (s : MergeState) (frames : List Mp3Frame) : Option MergeState :=
  processFrames s true frames

/-- The outer loop of `mergeFiles` over the input files
(mp3cat.go lines 131-179). -/
def mergeInputs (s : MergeState) : List (List Mp3Frame) → Option MergeState
  | [] => some s
  | inp :: rest =>
    match processInput s inp with
    | none => none
    | some s2 => mergeInputs s2 rest

/-- The retained frames of one input: the first frame is dropped exactly
when the VBR detector classifies it as an Xing/Info or VBRI signature
(spec §4.4 step 2). -/
def retainedFrames : List Mp3Frame → List Mp3Frame
  | [] => []
  | f :: fs => if (isVBRHeader f).getD false then fs else f :: fs

/-! ### The finalizer's rewrite (addXingHeader, mp3cat.go lines 197-242)

Only two paths are ever touched: the canonical output path and the
temporary path derived from it; the file system is modelled as the
contents at those two paths (`none` = path absent). -/

structure FsState where
  canonical : Option (List Nat)
  tmp : Option (List Nat)
  deriving Repr, DecidableEq

/-- The sequence of file-system states `addXingHeader` walks through when
every I/O call succeeds, starting from `orig` at the canonical path and no
temporary file: create the temporary file (os.Create, line 199), write the
synthesized header followed by a full copy of the original (lines 216-222),
remove the original (os.Remove, line 231), rename the temporary file onto
the canonical path (os.Rename, line 237).  `xing ++ orig` is the rewritten
content. -/
def addXingHeaderTrace (orig xing : List Nat) : List FsState :=
  [ { canonical := some orig, tmp := none },
    { canonical := some orig, tmp := some [] },
    { canonical := some orig, tmp := some (xing ++ orig) },
    { canonical := none, tmp := some (xing ++ orig) },
    { canonical := some (xing ++ orig), tmp := none } ]

/-- The file-system state at which `addXingHeader` aborts (os.Exit) when
the write of the temporary file fails after `written` of its bytes
(mp3cat.go lines 216-226): the abort happens before the remove, so the
canonical path still holds `orig`. -/
def addXingHeaderWriteFailState (orig written : List Nat) : FsState :=
  { canonical := some orig, tmp := some written }

end Mp3Cat

namespace Spec

open Mp3Lib

/-! ### Reference definitions written from the spec's words (§4.1)

These replicate the spec's reference tables independently of the embedding
above, so that the frame-length claim compares the code against them. -/

/-- Spec §4.1: the kbps bit-rate tables keyed by (MPEG-1 vs MPEG-2/2.5) ×
layer, index 0 invalid. -/
def specBitRateKbps (version layer idx : Nat) : Nat :=
  if version = MPEGVersion1 then
    if layer = MPEGLayerI then
      [0, 32, 64, 96, 128, 160, 192, 224, 256, 288, 320, 352, 384, 416, 448].getD idx 0
    else if layer = MPEGLayerII then
      [0, 32, 48, 56, 64, 80, 96, 112, 128, 160, 192, 224, 256, 320, 384].getD idx 0
    else
      [0, 32, 40, 48, 56, 64, 80, 96, 112, 128, 160, 192, 224, 256, 320].getD idx 0
  else
    if layer = MPEGLayerI then
      [0, 32, 48, 56, 64, 80, 96, 112, 128, 144, 160, 176, 192, 224, 256].getD idx 0
    else
      [0, 8, 16, 24, 32, 40, 48, 56, 64, 80, 96, 112, 128, 144, 160].getD idx 0

/-- Spec §4.1: sampling rates, indexed by the 2-bit field. -/
def specSamplingRate (version idx : Nat) : Nat :=
  if version = MPEGVersion1 then [44100, 48000, 32000].getD idx 0
  else if version = MPEGVersion2 then [22050, 24000, 16000].getD idx 0
  else [11025, 12000, 8000].getD idx 0

/-- Spec §4.1: sample count per frame. -/
def specSampleCount (version layer : Nat) : Nat :=
  if layer = MPEGLayerI then 384
  else if layer = MPEGLayerII then 1152
  else if version = MPEGVersion1 then 1152
  else 576

/-- Spec §4.1: padding of 4 bytes for Layer I and 1 byte for Layers
II/III, applied only when the padding bit is set. -/
def specPadding (layer : Nat) (padBit : Bool) : Nat :=
  if padBit then (if layer = MPEGLayerI then 4 else 1) else 0

/-- Spec §4.1: `frame_length = (sample_count / 8) * bit_rate_bps /
sampling_rate_hz + padding_bytes`, in exactly that order. -/
def specFrameLength (version layer brIdx srIdx : Nat) (padBit : Bool) : Nat :=
  (specSampleCount version layer / 8) * (specBitRateKbps version layer brIdx * 1000)
    / specSamplingRate version srIdx + specPadding layer padBit

/-- The value four proper synchsafe bytes (each < 128) declare:
7 significant bits per byte, big-endian. -/
def synchsafeVal (a b c d : Nat) : Nat :=
  a * 2 ^ 21 + b * 2 ^ 14 + c * 2 ^ 7 + d

/-! ### Helpers for the resynchronization claim -/

/-- A byte that can never start a recognised object: not the 0xFF of a
frame sync, not the 'T' of "TAG", not the 'I' of "ID3". -/
def goodGarbage (g : List Nat) : Bool :=
  g.all fun b => b ≠ 0xFF && b ≠ 84 && b ≠ 73

/-- `f` is the complete on-disk byte string of one valid frame: it starts
with a sync-matched header that the decoder accepts, and its length is
exactly the frame length the decoder derives. -/
def isWholeFrame (f : List Nat) : Bool :=
  match f with
  | b0 :: b1 :: b2 :: b3 :: _ =>
    b0 == 0xFF && b1 &&& 0xE0 == 0xE0 &&
      (match parseHeader b1 b2 b3 with
       | some fr => fr.frameLength == f.length
       | none => false)
  | _ => false

/-- The decoded form of a whole frame's byte string. -/
def frameOf (f : List Nat) : Mp3Frame :=
  match f with
  | _ :: b1 :: b2 :: b3 :: _ =>
    match parseHeader b1 b2 b3 with
    | some fr => { fr with rawBytes := f }
    | none => default
  | _ => default

/-- `g0 ++ f1 ++ g1 ++ f2 ++ g2 ++ ...`: frames interleaved with garbage,
`chunks = [(f1, g1), (f2, g2), ...]`. -/
def interleaved (g0 : List Nat) (chunks : List (List Nat × List Nat)) : List Nat :=
  g0 ++ (chunks.map fun c => c.1 ++ c.2).flatten

end Spec

namespace Mp3Lib

/-! ### Field bounds and the closed form of `parseHeaderP` -/

theorem masked_shift_le (b m k : Nat) : (b &&& m) >>> k ≤ m >>> k := by
  rw [Nat.shiftRight_eq_div_pow, Nat.shiftRight_eq_div_pow]
  exact Nat.div_le_div_right Nat.and_le_right

theorem hdrVersion_le (b1 : Nat) : hdrVersion b1 ≤ 3 := masked_shift_le b1 0x18 3

theorem hdrLayer_le (b1 : Nat) : hdrLayer b1 ≤ 3 := masked_shift_le b1 0x06 1

theorem hdrBrIdx_le (b2 : Nat) : hdrBrIdx b2 ≤ 15 := masked_shift_le b2 0xF0 4

theorem hdrSrIdx_le (b2 : Nat) : hdrSrIdx b2 ≤ 3 := masked_shift_le b2 0x0C 2

theorem hdrEmph_le (b3 : Nat) : hdrEmph b3 ≤ 3 := Nat.and_le_right

theorem lookupBitRate_isSome (v l i : Nat) (hi : i < 15) : (lookupBitRate v l i).isSome := by
  have h1 : (v1l1_br.get? i).isSome := by
    rw [List.get?_eq_get (by simpa [v1l1_br] using hi)]; rfl
  have h2 : (v1l2_br.get? i).isSome := by
    rw [List.get?_eq_get (by simpa [v1l2_br] using hi)]; rfl
  have h3 : (v1l3_br.get? i).isSome := by
    rw [List.get?_eq_get (by simpa [v1l3_br] using hi)]; rfl
  have h4 : (v2l1_br.get? i).isSome := by
    rw [List.get?_eq_get (by simpa [v2l1_br] using hi)]; rfl
  have h5 : (v2l2_br.get? i).isSome := by
    rw [List.get?_eq_get (by simpa [v2l2_br] using hi)]; rfl
  have h6 : (v2l3_br.get? i).isSome := by
    rw [List.get?_eq_get (by simpa [v2l3_br] using hi)]; rfl
  unfold lookupBitRate
  repeat' split
  all_goals simp_all

theorem lookupSamplingRate_isSome (v i : Nat) (hi : i < 3) : (lookupSamplingRate v i).isSome := by
  have h1 : (v1_sr.get? i).isSome := by
    rw [List.get?_eq_get (by simpa [v1_sr] using hi)]; rfl
  have h2 : (v2_sr.get? i).isSome := by
    rw [List.get?_eq_get (by simpa [v2_sr] using hi)]; rfl
  have h3 : (v25_sr.get? i).isSome := by
    rw [List.get?_eq_get (by simpa [v25_sr] using hi)]; rfl
  unfold lookupSamplingRate
  repeat' split
  all_goals simp_all

/-- The header-rejection condition actually implemented by `parseHeader`. -/
def rejectsHeader (b1 b2 b3 : Nat) : Prop :=
  hdrVersion b1 = MPEGVersionReserved ∨ hdrLayer b1 = MPEGLayerReserved ∨
  hdrBrIdx b2 = 0 ∨ hdrBrIdx b2 = 15 ∨ hdrSrIdx b2 = 3 ∨
  (hdrChan b3 ≠ JointStereo ∧ hdrModeExt b3 ≠ 0) ∨ hdrEmph b3 = 2

instance (b1 b2 b3 : Nat) : Decidable (rejectsHeader b1 b2 b3) := by
  unfold rejectsHeader; infer_instance

/-- Closed form of `parseHeaderP`: the decoder never panics, and it
accepts exactly the headers outside `rejectsHeader`. -/
theorem parseHeaderP_eq (b1 b2 b3 : Nat) :
    parseHeaderP b1 b2 b3 =
      if rejectsHeader b1 b2 b3 then some none else some (some (acceptFrame b1 b2 b3)) := by
  unfold parseHeaderP rejectsHeader
  by_cases h1 : hdrVersion b1 = MPEGVersionReserved
  · simp [h1]
  by_cases h2 : hdrLayer b1 = MPEGLayerReserved
  · simp [h1, h2]
  by_cases h3 : hdrBrIdx b2 = 0 ∨ hdrBrIdx b2 = 15
  · rcases h3 with h3 | h3 <;> simp [h1, h2, h3]
  push_neg at h3
  have hbr : (lookupBitRate (hdrVersion b1) (hdrLayer b1) (hdrBrIdx b2)).isSome :=
    lookupBitRate_isSome _ _ _ (lt_of_le_of_ne (hdrBrIdx_le b2) h3.2)
  obtain ⟨br, hbr⟩ := Option.isSome_iff_exists.mp hbr
  by_cases h4 : hdrSrIdx b2 = 3
  · simp [h1, h2, h3.1, h3.2, h4, hbr]
  have hsr : (lookupSamplingRate (hdrVersion b1) (hdrSrIdx b2)).isSome :=
    lookupSamplingRate_isSome _ _ (lt_of_le_of_ne (hdrSrIdx_le b2) h4)
  obtain ⟨sr, hsr⟩ := Option.isSome_iff_exists.mp hsr
  by_cases h5 : hdrChan b3 ≠ JointStereo ∧ hdrModeExt b3 ≠ 0
  · simp [h1, h2, h3.1, h3.2, h4, h5, hbr, hsr]
  by_cases h6 : hdrEmph b3 = 2
  · simp [h1, h2, h3.1, h3.2, h4, h5, h6, hbr, hsr]
  simp [h1, h2, h3.1, h3.2, h4, h5, h6, hbr, hsr]

theorem parseHeaderP_isSome (b1 b2 b3 : Nat) : (parseHeaderP b1 b2 b3).isSome := by
  rw [parseHeaderP_eq]; split <;> rfl

theorem parseHeader_eq (b1 b2 b3 : Nat) :
    parseHeader b1 b2 b3 =
      if rejectsHeader b1 b2 b3 then none else some (acceptFrame b1 b2 b3) := by
  unfold parseHeader
  rw [parseHeaderP_eq]
  split <;> rfl

theorem parseHeader_some (b1 b2 b3 : Nat) (f : Mp3Frame)
    (h : parseHeader b1 b2 b3 = some f) :
    ¬ rejectsHeader b1 b2 b3 ∧ f = acceptFrame b1 b2 b3 := by
  rw [parseHeader_eq] at h
  split at h
  · exact absurd h (by simp)
  · exact ⟨by assumption, (Option.some_injective _ h).symm⟩

/-- Exhaustive check over the accepted header domain that the derived
frame length is at least 24 bytes (the minimum is attained by an MPEG-2
Layer III frame at 8 kbps / 24 kHz). -/
def frameLenMinCheck : Bool :=
  (List.range 4).all fun v =>
    (List.range 4).all fun l =>
      (List.range 16).all fun bi =>
        (List.range 4).all fun si =>
          [false, true].all fun pad =>
            (v == MPEGVersionReserved) || (l == MPEGLayerReserved) ||
              (bi == 0) || (bi == 15) || (si == 3) ||
              decide (24 ≤ frameLenOf v l bi si pad)

theorem frameLenOf_ge_24 (v l bi si : Nat) (pad : Bool)
    (hv : v < 4) (hl : l < 4) (hbi : bi < 16) (hsi : si < 4)
    (h1 : v ≠ MPEGVersionReserved) (h2 : l ≠ MPEGLayerReserved)
    (h3 : bi ≠ 0) (h4 : bi ≠ 15) (h5 : si ≠ 3) :
    24 ≤ frameLenOf v l bi si pad := by
  have hc : frameLenMinCheck = true := by decide
  unfold frameLenMinCheck at hc
  rw [List.all_eq_true] at hc
  have hc := hc v (List.mem_range.mpr hv)
  rw [List.all_eq_true] at hc
  have hc := hc l (List.mem_range.mpr hl)
  rw [List.all_eq_true] at hc
  have hc := hc bi (List.mem_range.mpr hbi)
  rw [List.all_eq_true] at hc
  have hc := hc si (List.mem_range.mpr hsi)
  rw [List.all_eq_true] at hc
  have hc := hc pad (by cases pad <;> simp)
  simp only [Bool.or_eq_true, beq_iff_eq, decide_eq_true_eq] at hc
  tauto

theorem parseHeader_frameLength_ge (b1 b2 b3 : Nat) (f : Mp3Frame)
    (h : parseHeader b1 b2 b3 = some f) : 24 ≤ f.frameLength := by
  obtain ⟨hrej, rfl⟩ := parseHeader_some _ _ _ _ h
  unfold rejectsHeader at hrej
  push_neg at hrej
  obtain ⟨h1, h2, h3, h4, h5, _, _⟩ := hrej
  exact frameLenOf_ge_24 _ _ _ _ (hdrPad b2)
    (Nat.lt_succ_of_le (hdrVersion_le b1)) (Nat.lt_succ_of_le (hdrLayer_le b1))
    (Nat.lt_succ_of_le (hdrBrIdx_le b2)) (Nat.lt_succ_of_le (hdrSrIdx_le b2))
    h1 h2 h3 h4 h5

/-! ### Termination facts for the scanning loops -/

theorem scanStepAt_yield_lt (b0 b1 b2 b3 : Nat) (s : List Nat) (o : StreamObj) (r : List Nat)
    (h : scanStepAt b0 b1 b2 b3 s = .yield o r) :
    r.length < s.length := by
  unfold scanStepAt at h
  split at h
  · split at h
    · next h128 => cases h; simp only [List.length_drop]; omega
    · simp at h
  · split at h
    · split at h
      · next h10 =>
        split at h
        · next hsz => cases h; simp only [List.length_drop]; omega
        · simp at h
      · simp at h
    · split at h
      · split at h
        · next fr hfr =>
          split at h
          · next hlen =>
            cases h
            have h24 := parseHeader_frameLength_ge _ _ _ _ hfr
            simp only [List.length_drop]
            omega
          · simp at h
        · simp at h
      · simp at h

theorem nextObject_rest_lt (s : List Nat) :
    ∀ o r, nextObject s = some (o, r) → r.length < s.length := by
  induction s using nextObject.induct with
  | case1 b0 b1 b2 b3 rest o' r' hstep =>
    intro o r h
    simp only [nextObject, hstep] at h
    have hp := Option.some_injective _ h
    cases hp
    exact scanStepAt_yield_lt b0 b1 b2 b3 _ _ _ hstep
  | case2 b0 b1 b2 b3 rest hstep =>
    intro o r h
    simp only [nextObject, hstep] at h
    exact Option.noConfusion h
  | case3 b0 b1 b2 b3 rest hstep ih =>
    intro o r h
    simp only [nextObject, hstep] at h
    have := ih o r h
    simp only [List.length_cons] at this ⊢
    omega
  | case4 t ht =>
    intro o r h
    match t, ht with
    | [], _ => simp [nextObject] at h
    | [_], _ => simp [nextObject] at h
    | [_, _], _ => simp [nextObject] at h
    | [_, _, _], _ => simp [nextObject] at h
    | a :: b :: c :: d :: e, ht => exact absurd rfl (ht a b c d e)

/-- `NextFrame` (mp3lib.go lines 101-115): the next MP3 frame, skipping
over ID3v1/ID3v2 tags. -/
def nextFrame (s : List Nat) : Option (Mp3Frame × List Nat) :=
  match h : nextObject s with
  | none => none
  | some (.frame f, r) => some (f, r)
  | some (.id3v1 _, r) => nextFrame r
  | some (.id3v2 _, r) => nextFrame r
termination_by s.length
decreasing_by
  all_goals exact nextObject_rest_lt s _ _ h

theorem nextFrame_rest_lt (s : List Nat) :
    ∀ f r, nextFrame s = some (f, r) → r.length < s.length := by
  induction s using nextFrame.induct with
  | case1 s hobj =>
    intro f r h
    rw [nextFrame, hobj] at h
    exact Option.noConfusion h
  | case2 s f' r' hobj =>
    intro f r h
    rw [nextFrame, hobj] at h
    have hp := Option.some_injective _ h
    cases hp
    exact nextObject_rest_lt s _ _ hobj
  | case3 s raw r' hobj ih =>
    intro f r h
    rw [nextFrame, hobj] at h
    exact lt_trans (ih f r h) (nextObject_rest_lt s _ _ hobj)
  | case4 s raw r' hobj ih =>
    intro f r h
    rw [nextFrame, hobj] at h
    exact lt_trans (ih f r h) (nextObject_rest_lt s _ _ hobj)

/-- The full frame scan of a stream: all frames `NextFrame` yields, in
order (the shape of the per-input loop in mp3cat.go lines 145-175). -/
def scanFrames (s : List Nat) : List Mp3Frame :=
  match h : nextFrame s with
  | none => []
  | some (f, r) => f :: scanFrames r
termination_by s.length
decreasing_by
  all_goals exact nextFrame_rest_lt s _ _ h

end Mp3Lib

namespace Mp3Cat

open Mp3Lib

/-! ### Properties of the merge loop -/

theorem u32_add_left (x k : Nat) : u32 (u32 x + k) = u32 (x + k) := by
  simp [u32, Nat.mod_add_mod]

theorem processFrames_false_eq (fs : List Mp3Frame) (s : MergeState) :
    processFrames s false fs = some (fs.foldl writeFrame s) := by
  induction fs generalizing s with
  | nil => rfl
  | cons f fs ih => simp only [processFrames, List.foldl, ih]

/-- A successful run of the per-input loop is the fold of `writeFrame`
over the retained frames; on a nonempty input the first frame's
classification did not panic. -/
theorem processInput_eq (s s' : MergeState) (L : List Mp3Frame)
    (h : processInput s L = some s') :
    s' = (retainedFrames L).foldl writeFrame s := by
  cases L with
  | nil =>
    simp only [processInput, processFrames] at h
    cases h
    rfl
  | cons f fs =>
    simp only [processInput, processFrames] at h
    cases hv : isVBRHeader f with
    | none => rw [hv] at h; exact Option.noConfusion h
    | some b =>
      rw [hv] at h
      cases b with
      | true =>
        simp only at h
        rw [processFrames_false_eq] at h
        cases h
        simp [retainedFrames, hv]
      | false =>
        simp only at h
        rw [processFrames_false_eq] at h
        cases h
        simp [retainedFrames, hv, List.foldl]

theorem foldl_writeFrame_output (fs : List Mp3Frame) (s : MergeState) :
    (fs.foldl writeFrame s).output = s.output ++ fs.map (fun f => f.rawBytes) := by
  induction fs generalizing s with
  | nil => simp
  | cons f fs ih => simp [List.foldl, ih, writeFrame]

theorem foldl_writeFrame_totalFrames (fs : List Mp3Frame) (s : MergeState)
    (hs : u32 s.totalFrames = s.totalFrames) :
    (fs.foldl writeFrame s).totalFrames = u32 (s.totalFrames + fs.length) := by
  induction fs generalizing s with
  | nil => simpa [u32] using hs.symm
  | cons f fs ih =>
    rw [List.foldl, ih _ (by simp only [writeFrame, u32]; exact Nat.mod_mod_of_dvd _ dvd_rfl)]
    simp only [writeFrame, List.length_cons]
    rw [u32_add_left]
    ring_nf

theorem foldl_writeFrame_totalBytes (fs : List Mp3Frame) (s : MergeState)
    (hs : u32 s.totalBytes = s.totalBytes) :
    (fs.foldl writeFrame s).totalBytes
      = u32 (s.totalBytes + (fs.map (fun f => f.rawBytes.length)).sum) := by
  induction fs generalizing s with
  | nil => simpa [u32] using hs.symm
  | cons f fs ih =>
    rw [List.foldl, ih _ (by simp only [writeFrame, u32]; exact Nat.mod_mod_of_dvd _ dvd_rfl)]
    simp only [writeFrame, List.map_cons, List.sum_cons]
    rw [u32_add_left]
    ring_nf

theorem writeFrame_isVBR_mono (s : MergeState) (f : Mp3Frame) (h : s.isVBR = true) :
    (writeFrame s f).isVBR = true := by
  simp only [writeFrame, h]
  split <;> [rfl; split <;> rfl]

theorem foldl_writeFrame_isVBR_mono (fs : List Mp3Frame) (s : MergeState)
    (h : s.isVBR = true) : (fs.foldl writeFrame s).isVBR = true := by
  induction fs generalizing s with
  | nil => exact h
  | cons f fs ih => exact ih _ (writeFrame_isVBR_mono s f h)

theorem writeFrame_firstBitRate_ne (s : MergeState) (f : Mp3Frame)
    (h : s.firstBitRate ≠ 0) : (writeFrame s f).firstBitRate = s.firstBitRate := by
  simp [writeFrame, h]

theorem foldl_writeFrame_firstBitRate_ne (fs : List Mp3Frame) (s : MergeState)
    (h : s.firstBitRate ≠ 0) :
    (fs.foldl writeFrame s).firstBitRate = s.firstBitRate := by
  induction fs generalizing s with
  | nil => rfl
  | cons f fs ih =>
    rw [List.foldl, ih _ (by rw [writeFrame_firstBitRate_ne s f h]; exact h),
      writeFrame_firstBitRate_ne s f h]

/-- Uniform-bitrate invariant: frames all at bit rate `b` never set the
VBR flag, and the baseline stays 0 or `b`. -/
theorem foldl_writeFrame_cbr (b : Nat) (fs : List Mp3Frame) (s : MergeState)
    (hb : ∀ f ∈ fs, f.bitRate = b)
    (hfr : s.firstBitRate = 0 ∨ s.firstBitRate = b) (hv : s.isVBR = false) :
    (fs.foldl writeFrame s).isVBR = false ∧
      ((fs.foldl writeFrame s).firstBitRate = 0 ∨ (fs.foldl writeFrame s).firstBitRate = b) := by
  induction fs generalizing s with
  | nil => exact ⟨hv, hfr⟩
  | cons f fs ih =>
    have hf : f.bitRate = b := hb f (by simp)
    have hb' : ∀ g ∈ fs, g.bitRate = b := fun g hg => hb g (by simp [hg])
    rw [List.foldl]
    rcases hfr with hfr | hfr
    · exact ih _ hb' (by simp [writeFrame, hfr, hf]) (by simp [writeFrame, hfr, hv])
    · by_cases h0 : s.firstBitRate = 0
      · exact ih _ hb' (by simp [writeFrame, h0, hf]) (by simp [writeFrame, h0, hv])
      · have hbne : b ≠ 0 := fun hb0 => h0 (by rw [hfr, hb0])
        exact ih _ hb' (Or.inr (by simp [writeFrame, h0, hfr, hbne]))
          (by simp [writeFrame, h0, hf, hfr, hbne, hv])

/-- A retained frame whose bit rate differs from a nonzero baseline sets
the VBR flag for good. -/
theorem foldl_writeFrame_trigger (fs : List Mp3Frame) (s : MergeState) (f : Mp3Frame)
    (hmem : f ∈ fs) (h0 : s.firstBitRate ≠ 0) (hne : f.bitRate ≠ s.firstBitRate) :
    (fs.foldl writeFrame s).isVBR = true := by
  induction fs generalizing s with
  | nil => cases hmem
  | cons g gs ih =>
    rw [List.foldl]
    rcases List.mem_cons.mp hmem with rfl | hmem'
    · exact foldl_writeFrame_isVBR_mono gs _ (by simp [writeFrame, h0, hne])
    · have hfr := writeFrame_firstBitRate_ne s g h0
      exact ih _ hmem' (by rw [hfr]; exact h0) (by rw [hfr]; exact hne)

/-- Frames whose bit rate is 0 leave an unset baseline unset. -/
theorem foldl_writeFrame_zero_baseline (pre : List Mp3Frame) (s : MergeState)
    (h0 : s.firstBitRate = 0) (hz : ∀ g ∈ pre, g.bitRate = 0) :
    (pre.foldl writeFrame s).firstBitRate = 0 := by
  induction pre generalizing s with
  | nil => exact h0
  | cons g gs ih =>
    rw [List.foldl]
    exact ih _ (by simp [writeFrame, h0, hz g (by simp)])
      (fun g' hg' => hz g' (by simp [hg']))

/-- C2: during a merge, a frame of an input is discarded (written nowhere,
counted nowhere) exactly when it is that input's first decoded frame and
the VBR detector classifies it as an Xing/Info or VBRI signature; such an
input contributes `frame_count - 1` frames, and a signature frame in any
later position is written and counted like any other frame. -/
theorem mergeFiles_first_frame_discard (s s' : MergeState) (L : List Mp3Frame)
    (h : processInput s L = some s') :
    s'.output = s.output ++ (retainedFrames L).map (fun f => f.rawBytes) ∧
    (u32 s.totalFrames = s.totalFrames →
      s'.totalFrames = u32 (s.totalFrames + (retainedFrames L).length)) ∧
    (u32 s.totalBytes = s.totalBytes →
      s'.totalBytes = u32 (s.totalBytes + ((retainedFrames L).map (fun f => f.rawBytes.length)).sum)) ∧
    (∀ f fs, L = f :: fs → (isVBRHeader f).getD false = true →
      retainedFrames L = fs ∧ s'.output.length = s.output.length + (L.length - 1)) ∧
    (∀ f fs, L = f :: fs → (isVBRHeader f).getD false = false → retainedFrames L = L) := by
  have hs' := processInput_eq s s' L h
  subst hs'
  refine ⟨foldl_writeFrame_output _ _, foldl_writeFrame_totalFrames _ _,
    foldl_writeFrame_totalBytes _ _, ?_, ?_⟩
  · rintro f fs rfl hsig
    have hr : retainedFrames (f :: fs) = fs := by simp [retainedFrames, hsig]
    refine ⟨hr, ?_⟩
    rw [foldl_writeFrame_output, hr]
    simp
  · rintro f fs rfl hsig
    simp [retainedFrames, hsig]

/-- C3: the VBR flag is monotone, the first retained frame of the merge
sets the bit-rate baseline, a retained frame differing from a nonzero
baseline raises the flag — whether the baseline was set before this
input started or by an earlier retained frame of this same input — and
merging one uniform-bitrate input with a copy of itself ends with
`is_vbr = false` and exactly doubled totals. -/
theorem mergeFiles_vbr_flag_properties :
    (∀ s L s', processInput s L = some s' → s.isVBR = true → s'.isVBR = true) ∧
    (∀ L s' f₀ rest, processInput initialMergeState L = some s' →
      retainedFrames L = f₀ :: rest → f₀.bitRate ≠ 0 →
      s'.firstBitRate = f₀.bitRate) ∧
    (∀ s L s' f, processInput s L = some s' → s.firstBitRate ≠ 0 →
      f ∈ retainedFrames L → f.bitRate ≠ s.firstBitRate → s'.isVBR = true) ∧
    (∀ s L s' f₀ pre post f, processInput s L = some s' → s.firstBitRate = 0 →
      retainedFrames L = pre ++ f₀ :: post → (∀ g ∈ pre, g.bitRate = 0) →
      f₀.bitRate ≠ 0 → f ∈ post → f.bitRate ≠ f₀.bitRate → s'.isVBR = true) ∧
    (∀ L s' b, (∀ f ∈ retainedFrames L, f.bitRate = b) →
      mergeInputs initialMergeState [L, L] = some s' →
      s'.isVBR = false ∧
      (2 * (retainedFrames L).length < 4294967296 →
        s'.totalFrames = 2 * (retainedFrames L).length) ∧
      (2 * ((retainedFrames L).map (fun f => f.rawBytes.length)).sum < 4294967296 →
        s'.totalBytes = 2 * ((retainedFrames L).map (fun f => f.rawBytes.length)).sum)) := by
  refine ⟨?_, ?_, ?_, ?_, ?_⟩
  · intro s L s' h hv
    have hs' := processInput_eq s s' L h
    subst hs'
    exact foldl_writeFrame_isVBR_mono _ _ hv
  · intro L s' f₀ rest h hr h0
    have hs' := processInput_eq _ s' L h
    subst hs'
    rw [hr, List.foldl]
    have h1 : (writeFrame initialMergeState f₀).firstBitRate = f₀.bitRate := by
      simp [writeFrame, initialMergeState]
    rw [foldl_writeFrame_firstBitRate_ne _ _ (by rw [h1]; exact h0), h1]
  · intro s L s' f h h0 hmem hne
    have hs' := processInput_eq s s' L h
    subst hs'
    exact foldl_writeFrame_trigger _ _ _ hmem h0 hne
  · intro s L s' f₀ pre post f h h0 hr hz hf₀ hmem hne
    have hs' := processInput_eq s s' L h
    subst hs'
    rw [hr, List.foldl_append, List.foldl]
    have hpre : (pre.foldl writeFrame s).firstBitRate = 0 :=
      foldl_writeFrame_zero_baseline pre s h0 hz
    have hset : (writeFrame (pre.foldl writeFrame s) f₀).firstBitRate = f₀.bitRate := by
      simp [writeFrame, hpre]
    exact foldl_writeFrame_trigger post _ f hmem
      (by rw [hset]; exact hf₀) (by rw [hset]; exact hne)
  · intro L s' b hb h
    simp only [mergeInputs] at h
    cases hp1 : processInput initialMergeState L with
    | none => rw [hp1] at h; exact Option.noConfusion h
    | some s1 =>
      rw [hp1] at h
      simp only [mergeInputs] at h
      cases hp2 : processInput s1 L with
      | none => rw [hp2] at h; exact Option.noConfusion h
      | some s2 =>
        rw [hp2] at h
        simp only [mergeInputs] at h
        cases h
        have e1 := processInput_eq _ _ _ hp1
        have e2 := processInput_eq _ _ _ hp2
        subst e1; subst e2
        have hcbr1 := foldl_writeFrame_cbr b (retainedFrames L) initialMergeState hb
          (Or.inl rfl) rfl
        have hcbr2 := foldl_writeFrame_cbr b (retainedFrames L) _ hb hcbr1.2 hcbr1.1
        refine ⟨hcbr2.1, ?_, ?_⟩
        · intro hlt
          rw [foldl_writeFrame_totalFrames _ _ ?hs2]
          case hs2 =>
            rw [foldl_writeFrame_totalFrames _ _ (by rfl)]
            simp only [u32]
            exact Nat.mod_mod_of_dvd _ dvd_rfl
          rw [foldl_writeFrame_totalFrames _ _ (by rfl)]
          simp only [initialMergeState, Nat.zero_add, u32, Nat.mod_add_mod]
          omega
        · intro hlt
          rw [foldl_writeFrame_totalBytes _ _ ?hs2b]
          case hs2b =>
            rw [foldl_writeFrame_totalBytes _ _ (by rfl)]
            simp only [u32]
            exact Nat.mod_mod_of_dvd _ dvd_rfl
          rw [foldl_writeFrame_totalBytes _ _ (by rfl)]
          simp only [initialMergeState, Nat.zero_add, u32, Nat.mod_add_mod]
          omega

end Mp3Cat

namespace Mp3Lib

/-! ### The frame-length formula against the spec's reference tables -/

theorem lookupBitRate_spec : ∀ v < 4, ∀ l < 4, ∀ bi < 16, l ≠ MPEGLayerReserved →
    (lookupBitRate v l bi).getD 0 = Spec.specBitRateKbps v l bi * 1000 := by decide

theorem lookupSamplingRate_spec : ∀ v < 4, ∀ si < 4, v ≠ MPEGVersionReserved →
    (lookupSamplingRate v si).getD 0 = Spec.specSamplingRate v si := by decide

theorem sampleCountOf_spec : ∀ v < 4, ∀ l < 4, l ≠ MPEGLayerReserved →
    sampleCountOf v l = Spec.specSampleCount v l := by decide

/-- C1: on every accepted header the decoder's frame length is exactly
`(sample_count / 8) * bit_rate_bps / sampling_rate_hz + padding_bytes`,
computed over the spec's reference tables for bit rate (kbps × 1000),
sampling rate, sample count, and padding (4 bytes for Layer I, 1 byte for
Layers II/III, only when the padding bit is set). -/
theorem parseHeader_frameLength_spec (b1 b2 b3 : Nat) (f : Mp3Frame)
    (h : parseHeader b1 b2 b3 = some f) :
    f.frameLength = (f.sampleCount / 8) * f.bitRate / f.samplingRate
        + Spec.specPadding f.mpegLayer f.paddingBit ∧
    f.bitRate = Spec.specBitRateKbps f.mpegVersion f.mpegLayer (hdrBrIdx b2) * 1000 ∧
    f.samplingRate = Spec.specSamplingRate f.mpegVersion (hdrSrIdx b2) ∧
    f.sampleCount = Spec.specSampleCount f.mpegVersion f.mpegLayer ∧
    f.frameLength = Spec.specFrameLength f.mpegVersion f.mpegLayer
        (hdrBrIdx b2) (hdrSrIdx b2) f.paddingBit := by
  obtain ⟨hrej, rfl⟩ := parseHeader_some _ _ _ _ h
  unfold rejectsHeader at hrej
  push_neg at hrej
  obtain ⟨h1, h2, _, _, _, _, _⟩ := hrej
  have hv := Nat.lt_succ_of_le (hdrVersion_le b1)
  have hl := Nat.lt_succ_of_le (hdrLayer_le b1)
  have hbi := Nat.lt_succ_of_le (hdrBrIdx_le b2)
  have hsi := Nat.lt_succ_of_le (hdrSrIdx_le b2)
  have ebr := lookupBitRate_spec _ hv _ hl _ hbi h2
  have esr := lookupSamplingRate_spec _ hv _ hsi h1
  have esc := sampleCountOf_spec _ hv _ hl h2
  refine ⟨rfl, ebr, esr, esc, ?_⟩
  simp only [acceptFrame, frameLenOf, Spec.specFrameLength, ebr, esr, esc]
  rfl

/-! ### The decoder's rejection conditions -/

/-- C8 (counterexample): the sync-matched header `FF FB 10 10` satisfies
none of the five rejection conditions the spec lists, yet `parseHeader`
rejects it — its channel mode is stereo while its mode-extension field
is nonzero, a sixth rejection the code applies. -/
theorem parseHeader_rejects_mode_extension_cex :
    parseHeader 0xFB 0x10 0x10 = none ∧
    hdrVersion 0xFB ≠ MPEGVersionReserved ∧ hdrLayer 0xFB ≠ MPEGLayerReserved ∧
    hdrBrIdx 0x10 ≠ 0 ∧ hdrBrIdx 0x10 ≠ 15 ∧ hdrSrIdx 0x10 ≠ 3 ∧
    hdrEmph 0x10 ≠ 2 ∧
    hdrChan 0x10 ≠ JointStereo ∧ hdrModeExt 0x10 ≠ 0 := by decide

/-- C8 (amended): a sync-matched header is rejected iff the MPEG-version
field is reserved, the layer field is reserved, the bit-rate index is 0 or
15, the sampling-rate index is 3, the emphasis field is 2, or — the
condition the spec omits — the channel mode is not joint stereo while the
mode-extension field is nonzero. -/
theorem parseHeader_rejects_iff (b1 b2 b3 : Nat) :
    parseHeader b1 b2 b3 = none ↔
      (hdrVersion b1 = MPEGVersionReserved ∨ hdrLayer b1 = MPEGLayerReserved ∨
       hdrBrIdx b2 = 0 ∨ hdrBrIdx b2 = 15 ∨ hdrSrIdx b2 = 3 ∨
       (hdrChan b3 ≠ JointStereo ∧ hdrModeExt b3 ≠ 0) ∨ hdrEmph b3 = 2) := by
  have hiff : parseHeader b1 b2 b3 = none ↔ rejectsHeader b1 b2 b3 := by
    rw [parseHeader_eq]
    split <;> simp [*]
  exact hiff

/-- C10: the decoder is total on all header bytes — the modelled table
accesses never go out of range (`parseHeaderP` never returns the panic
value), the 4-bit bit-rate index is a priori at most 15 and the 2-bit
sampling-rate index at most 3. -/
theorem parseHeader_table_access_safe (b1 b2 b3 : Nat) :
    (parseHeaderP b1 b2 b3).isSome = true ∧ hdrBrIdx b2 ≤ 15 ∧ hdrSrIdx b2 ≤ 3 :=
  ⟨parseHeaderP_isSome b1 b2 b3, hdrBrIdx_le b2, hdrSrIdx_le b2⟩

/-! ### Byte-level layout of the synthesized Xing header -/

theorem set_append_aligned (A c : List Nat) (j v : Nat) :
    (A ++ c).set (A.length + j) v = A ++ c.set j v := by
  induction A with
  | nil => simp
  | cons a A ih => simp [List.set, Nat.succ_add, ih]

theorem writeBytesAt_eq (bs : List Nat) (l : List Nat) (i : Nat)
    (h : i + bs.length ≤ l.length) :
    writeBytesAt l i bs = l.take i ++ bs ++ l.drop (i + bs.length) := by
  induction bs generalizing l i with
  | nil =>
    simp only [writeBytesAt, List.length_nil, Nat.add_zero]
    rw [List.append_nil, List.take_append_drop]
  | cons b bs ih =>
    have hi : i < l.length := by
      simp only [List.length_cons] at h
      omega
    rw [writeBytesAt, ih _ _ (by simp only [List.length_set, List.length_cons] at h ⊢; omega)]
    have hset := List.set_eq_take_cons_drop b hi
    have hlen : (l.take i).length = i := List.length_take_of_le (Nat.le_of_lt hi)
    have htake : (l.set i b).take (i + 1) = l.take i ++ [b] := by
      rw [hset, List.take_append_eq_append_take, hlen,
        List.take_of_length_le (by rw [hlen]; omega)]
      congr 1
      have h1 : i + 1 - i = 1 := by omega
      rw [h1]
      rfl
    have hdrop : (l.set i b).drop (i + 1 + bs.length) = l.drop (i + (b :: bs).length) := by
      rw [hset, List.drop_append_eq_append_drop, hlen,
        List.drop_eq_nil_of_le (by rw [hlen]; omega), List.nil_append]
      have h1 : i + 1 + bs.length - i = bs.length + 1 := by omega
      rw [h1, List.drop_succ_cons, List.drop_drop]
      congr 1
      simp [List.length_cons]
      omega
    rw [htake, hdrop]
    simp

theorem writeBytesAt_pad (A : List Nat) (k i : Nat) (bs : List Nat)
    (h1 : A.length ≤ i) (h2 : i + bs.length ≤ A.length + k) :
    writeBytesAt (A ++ List.replicate k 0) i bs
      = A ++ List.replicate (i - A.length) 0 ++ bs
          ++ List.replicate (A.length + k - i - bs.length) 0 := by
  rw [writeBytesAt_eq _ _ _ (by simp only [List.length_append, List.length_replicate]; omega)]
  rw [List.take_append_eq_append_take, List.take_of_length_le h1,
    List.take_replicate, List.drop_append_eq_append_drop,
    List.drop_eq_nil_of_le (by omega), List.nil_append, List.drop_replicate]
  have q1 : min (i - A.length) k = i - A.length := by omega
  have q2 : k - (i + bs.length - A.length) = A.length + k - i - bs.length := by omega
  rw [q1, q2]

/-- The byte layout spec 4.5 prescribes for the synthesized frame:
template header, zeros through the side-info area, "Xing", zero flag
bytes with 0x03 at offset+7, the two big-endian counters, zeros to the
end of the frame slot. -/
def xingLayout (t : Mp3Frame) (n m : Nat) : List Nat :=
  t.rawBytes.take 4 ++ List.replicate (getSideInfoSize t) 0 ++ xingId
    ++ [0, 0, 0, 3] ++ be32 n ++ be32 m
    ++ List.replicate (t.frameLength - getSideInfoSize t - 20) 0

/-- C4 (amended): for every template frame whose `RawBytes` holds the
4-byte header and whose frame length is at least `offset + 16`
(`offset = 4 + side_info_size`), the synthesized Xing frame is a buffer of
exactly the template's frame length laid out as: the template's original
4-byte header, zeros, ASCII "Xing" at `offset`, 0x03 at `offset + 7`,
`total_frames` then `total_bytes` as 4-byte big-endian integers at
`offset + 8` and `offset + 12`, and every other byte zero. -/
theorem newXingHeader_layout (t : Mp3Frame) (n m : Nat)
    (h4 : 4 ≤ t.rawBytes.length)
    (hL : 4 + getSideInfoSize t + 16 ≤ t.frameLength) :
    newXingHeaderP t n m = some { t with rawBytes := xingLayout t n m } ∧
    (xingLayout t n m).length = t.frameLength := by
  have hhdr0 : (t.rawBytes.take 4).length = 4 := List.length_take_of_le h4
  refine ⟨?eqgoal, ?lengoal⟩
  case lengoal =>
    unfold xingLayout
    simp only [List.length_append, List.length_replicate, hhdr0, List.length_cons,
      List.length_nil, be32, xingId]
    omega
  have hhdr : (t.rawBytes.take 4).length = 4 := List.length_take_of_le h4
  have hxlen : xingId.length = 4 := rfl
  have hblen : forall k : Nat, (be32 k).length = 4 := fun k => rfl
  set S := getSideInfoSize t with hS
  set L := t.frameLength with hLdef
  have e1 : writeBytesAt (List.replicate L 0) 0 (t.rawBytes.take 4)
      = t.rawBytes.take 4 ++ List.replicate (L - 4) 0 := by
    rw [writeBytesAt_eq _ _ _ (by rw [hhdr, List.length_replicate]; omega)]
    rw [hhdr, List.take_zero, List.nil_append, List.drop_replicate]
  have e2 : writeBytesAt (t.rawBytes.take 4 ++ List.replicate (L - 4) 0) (4 + S) xingId
      = t.rawBytes.take 4 ++ (List.replicate S 0 ++ (xingId ++ List.replicate (L - S - 8) 0)) := by
    rw [writeBytesAt_pad _ _ _ _ (by rw [hhdr]; omega) (by rw [hhdr, hxlen]; omega)]
    rw [hhdr, hxlen]
    have q1 : 4 + S - 4 = S := by omega
    have q2 : 4 + (L - 4) - (4 + S) - 4 = L - S - 8 := by omega
    rw [q1, q2]
    simp [List.append_assoc]
  have e3 : (t.rawBytes.take 4 ++ (List.replicate S 0 ++ (xingId ++ List.replicate (L - S - 8) 0))).set (4 + S + 7) 3
      = t.rawBytes.take 4 ++ (List.replicate S 0 ++ (xingId ++ (List.replicate 3 0
          ++ (3 :: List.replicate (L - S - 12) 0)))) := by
    have q0 : 4 + S + 7 = (t.rawBytes.take 4).length + (S + 7) := by rw [hhdr]; omega
    rw [q0, set_append_aligned]
    have q1 : S + 7 = (List.replicate S (0 : Nat)).length + 7 := by
      rw [List.length_replicate]
    rw [q1, set_append_aligned]
    have q2 : (7 : Nat) = xingId.length + 3 := by rw [hxlen]
    rw [q2, set_append_aligned]
    have q3 : (List.replicate (L - S - 8) (0 : Nat)).set 3 3
        = List.replicate 3 0 ++ 3 :: List.replicate (L - S - 12) 0 := by
      rw [List.set_eq_take_cons_drop _ (by rw [List.length_replicate]; omega),
        List.take_replicate, List.drop_replicate]
      have q4 : min 3 (L - S - 8) = 3 := by omega
      have q5 : L - S - 8 - (3 + 1) = L - S - 12 := by omega
      rw [q4, q5]
    rw [q3]
  have hA4 : (t.rawBytes.take 4 ++ List.replicate S 0 ++ xingId ++ List.replicate 3 0 ++ [3]).length
      = 12 + S := by
    simp only [List.length_append, List.length_replicate, hhdr, hxlen, List.length_cons,
      List.length_nil]
    omega
  have e4 : writeBytesAt (t.rawBytes.take 4 ++ (List.replicate S 0 ++ (xingId ++ (List.replicate 3 0
          ++ (3 :: List.replicate (L - S - 12) 0))))) (4 + S + 8) (be32 n)
      = t.rawBytes.take 4 ++ (List.replicate S 0 ++ (xingId ++ (List.replicate 3 0
          ++ (3 :: (be32 n ++ List.replicate (L - S - 16) 0))))) := by
    have q : t.rawBytes.take 4 ++ (List.replicate S 0 ++ (xingId ++ (List.replicate 3 0
          ++ (3 :: List.replicate (L - S - 12) 0))))
        = (t.rawBytes.take 4 ++ List.replicate S 0 ++ xingId ++ List.replicate 3 0 ++ [3])
            ++ List.replicate (L - S - 12) 0 := by
      simp [List.append_assoc]
    rw [q, writeBytesAt_pad _ _ _ _ (by rw [hA4]; omega) (by rw [hA4, hblen n]; omega)]
    rw [hA4, hblen n]
    have q1 : 4 + S + 8 - (12 + S) = 0 := by omega
    have q2 : 12 + S + (L - S - 12) - (4 + S + 8) - 4 = L - S - 16 := by omega
    rw [q1, q2]
    simp [List.append_assoc]
  have hA5 : (t.rawBytes.take 4 ++ List.replicate S 0 ++ xingId ++ List.replicate 3 0 ++ [3]
      ++ be32 n).length = 16 + S := by
    simp only [List.length_append, List.length_replicate, hhdr, hxlen, List.length_cons,
      List.length_nil, hblen n]
    omega
  have e5 : writeBytesAt (t.rawBytes.take 4 ++ (List.replicate S 0 ++ (xingId ++ (List.replicate 3 0
          ++ (3 :: (be32 n ++ List.replicate (L - S - 16) 0)))))) (4 + S + 12) (be32 m)
      = t.rawBytes.take 4 ++ (List.replicate S 0 ++ (xingId ++ (List.replicate 3 0
          ++ (3 :: (be32 n ++ (be32 m ++ List.replicate (L - S - 20) 0)))))) := by
    have q : t.rawBytes.take 4 ++ (List.replicate S 0 ++ (xingId ++ (List.replicate 3 0
          ++ (3 :: (be32 n ++ List.replicate (L - S - 16) 0)))))
        = (t.rawBytes.take 4 ++ List.replicate S 0 ++ xingId ++ List.replicate 3 0 ++ [3]
            ++ be32 n) ++ List.replicate (L - S - 16) 0 := by
      simp [List.append_assoc]
    rw [q, writeBytesAt_pad _ _ _ _ (by rw [hA5]; omega) (by rw [hA5, hblen m]; omega)]
    rw [hA5, hblen m]
    have q1 : 4 + S + 12 - (16 + S) = 0 := by omega
    have q2 : 16 + S + (L - S - 16) - (4 + S + 12) - 4 = L - S - 20 := by omega
    rw [q1, q2]
    simp [List.append_assoc]
  unfold newXingHeaderP
  rw [if_neg (by omega : ¬ t.rawBytes.length < 4)]
  rw [if_neg (by omega : ¬ L < 4 + S + 4)]
  rw [if_neg (by omega : ¬ L ≤ 4 + S + 7)]
  rw [if_neg (by omega : ¬ L < 4 + S + 12)]
  rw [if_neg (by omega : ¬ L < 4 + S + 16)]
  rw [e1, e2, e3, e4, e5]
  unfold xingLayout
  simp [List.append_assoc]

end Mp3Lib

namespace Mp3Lib

/-- C5 (amended): on a frame with at least `offset + 4` (resp. 40) bytes
the detectors return exactly the spec's classification — bytes
`[offset, offset+4)` equal to ASCII "Xing" or "Info", resp. bytes
`[36, 40)` equal to ASCII "VBRI" — but on any shorter frame they perform
an out-of-bounds slice (a runtime panic, modelled as `none`) instead of
classifying it as not-a-VBR-header. -/
theorem vbr_detectors_classification (f : Mp3Frame) :
    (4 + getSideInfoSize f + 4 ≤ f.rawBytes.length →
      isXingHeaderP f = some (decide
        ((f.rawBytes.drop (4 + getSideInfoSize f)).take 4 = xingId ∨
         (f.rawBytes.drop (4 + getSideInfoSize f)).take 4 = infoId))) ∧
    (f.rawBytes.length < 4 + getSideInfoSize f + 4 → isXingHeaderP f = none) ∧
    (40 ≤ f.rawBytes.length →
      isVbriHeaderP f = some (decide ((f.rawBytes.drop 36).take 4 = vbriId))) ∧
    (f.rawBytes.length < 40 → isVbriHeaderP f = none) := by
  have hsome : ∀ (l : List Nat) (lo hi : Nat), lo ≤ hi → hi ≤ l.length →
      goSlice l lo hi = some ((l.drop lo).take (hi - lo)) := by
    intro l lo hi h1 h2
    unfold goSlice
    rw [if_pos ⟨h1, h2⟩]
  have hnone : ∀ (l : List Nat) (lo hi : Nat), l.length < hi → goSlice l lo hi = none := by
    intro l lo hi h1
    unfold goSlice
    rw [if_neg (by omega)]
  refine ⟨?_, ?_, ?_, ?_⟩
  · intro h
    unfold isXingHeaderP
    rw [hsome _ _ _ (by omega) h]
    have q : 4 + getSideInfoSize f + 4 - (4 + getSideInfoSize f) = 4 := by omega
    rw [q]
  · intro h
    unfold isXingHeaderP
    rw [hnone _ _ _ (by omega)]
  · intro h
    unfold isVbriHeaderP
    rw [hsome _ _ _ (by omega) (by omega)]
  · intro h
    unfold isVbriHeaderP
    rw [hnone _ _ _ (by omega)]

end Mp3Lib

namespace Examples

open Mp3Lib Spec

/-- A complete 64-byte MPEG-1 Layer I frame (64 kbps at 48 kHz). -/
def tf64bytes : List Nat := 255 :: 255 :: 36 :: 0 :: List.replicate 60 0

def tf64 : Mp3Frame := frameOf tf64bytes

/-- A complete 24-byte MPEG-2 Layer III stereo frame (8 kbps at 24 kHz):
the shortest frame the decoder accepts. -/
def tf24bytes : List Nat := 255 :: 243 :: 20 :: 0 :: List.replicate 20 0

def tf24 : Mp3Frame := frameOf tf24bytes

/-- A complete 32-byte MPEG-1 Layer I frame (32 kbps at 48 kHz). -/
def tf32bytes : List Nat := 255 :: 255 :: 20 :: 0 :: List.replicate 28 0

def tf32 : Mp3Frame := frameOf tf32bytes

end Examples

namespace Mp3Lib

open Examples

/-- C5 (counterexample): a decoded 24-byte Layer III frame makes
`IsXingHeader` slice out of bounds, and a decoded 32-byte Layer I frame
makes `IsVbriHeader` slice out of bounds — frames shorter than
`offset + 4` (resp. 40) bytes are not classified as not-a-VBR-header,
they crash the classifier. -/
theorem vbr_detectors_short_frame_cex :
    nextObject tf24bytes = some (.frame tf24, []) ∧
    tf24.rawBytes.length = 24 ∧ 4 + getSideInfoSize tf24 + 4 = 25 ∧
    isXingHeaderP tf24 = none ∧
    nextObject tf32bytes = some (.frame tf32, []) ∧
    tf32.rawBytes.length = 32 ∧
    isVbriHeaderP tf32 = none := by decide

/-- C4 (counterexample): on the decoded 24-byte MPEG-2 Layer III stereo
template (`frame_length = 24 < offset + 16 = 37`) the synthesizer's slice
`RawBytes[offset:offset+4]` is out of range — it panics instead of
producing the claimed buffer. -/
theorem newXingHeader_short_template_cex :
    nextObject tf24bytes = some (.frame tf24, []) ∧
    newXingHeaderP tf24 1 1 = none := by decide

end Mp3Lib

namespace Mp3Lib

theorem synchsafe_or_eq_add (a b c d : Nat) (hb : b < 128) (hc : c < 128) (hd : d < 128) :
    a <<< 21 ||| b <<< 14 ||| c <<< 7 ||| d = a * 2 ^ 21 + b * 2 ^ 14 + c * 2 ^ 7 + d := by
  rw [Nat.shiftLeft_eq, Nat.shiftLeft_eq, Nat.shiftLeft_eq]
  have e1 : a * 2 ^ 21 ||| b * 2 ^ 14 = a * 2 ^ 21 + b * 2 ^ 14 := by
    rw [Nat.mul_comm a]
    exact (Nat.mul_add_lt_is_or (by omega) a).symm
  rw [e1]
  have f2 : a * 2 ^ 21 + b * 2 ^ 14 = 2 ^ 14 * (a * 2 ^ 7 + b) := by ring
  have e2 : a * 2 ^ 21 + b * 2 ^ 14 ||| c * 2 ^ 7 = a * 2 ^ 21 + b * 2 ^ 14 + c * 2 ^ 7 := by
    rw [f2]
    exact (Nat.mul_add_lt_is_or (by omega) _).symm
  rw [e2]
  have f3 : a * 2 ^ 21 + b * 2 ^ 14 + c * 2 ^ 7 = 2 ^ 7 * (a * 2 ^ 14 + b * 2 ^ 7 + c) := by ring
  rw [f3]
  rw [(Nat.mul_add_lt_is_or (by omega) _).symm]

/-- C6: a stream beginning with a 10-byte ID3v2 header (bytes 0-2 ASCII
"ID3") whose four synchsafe size bytes declare size `S` yields, provided
the stream holds at least `10 + S` bytes, an ID3v2 tag whose raw bytes
are exactly the first `10 + S` bytes of the stream. -/
theorem id3v2_tag_exact (s : List Nat) (S : Nat)
    (h0 : s.getD 0 0 = 73) (h1 : s.getD 1 0 = 68) (h2 : s.getD 2 0 = 51)
    (h6 : s.getD 6 0 < 128) (h7 : s.getD 7 0 < 128)
    (h8 : s.getD 8 0 < 128) (h9 : s.getD 9 0 < 128)
    (hS : S = Spec.synchsafeVal (s.getD 6 0) (s.getD 7 0) (s.getD 8 0) (s.getD 9 0))
    (hlen : 10 + S ≤ s.length) :
    nextObject s = some (.id3v2 (s.take (10 + S)), s.drop (10 + S)) ∧
    (s.take (10 + S)).length = 10 + S := by
  have hsz : id3v2DeclaredLen s = S := by
    unfold id3v2DeclaredLen
    rw [synchsafe_or_eq_add _ _ _ _ h7 h8 h9, hS]
    rfl
  match s with
  | [] => simp only [List.length_nil] at hlen; omega
  | [_] => simp only [List.length_cons, List.length_nil] at hlen; omega
  | [_, _] => simp only [List.length_cons, List.length_nil] at hlen; omega
  | [_, _, _] => simp only [List.length_cons, List.length_nil] at hlen; omega
  | b0 :: b1 :: b2 :: b3 :: rest =>
    simp only [List.getD_cons_zero, List.getD_cons_succ] at h0 h1 h2
    subst h0; subst h1; subst h2
    have hstep : scanStepAt 73 68 51 b3 (73 :: 68 :: 51 :: b3 :: rest)
        = .yield (.id3v2 ((73 :: 68 :: 51 :: b3 :: rest).take (10 + S)))
            ((73 :: 68 :: 51 :: b3 :: rest).drop (10 + S)) := by
      unfold scanStepAt
      rw [if_neg (by simp), if_pos ⟨rfl, rfl, rfl⟩, if_pos (by omega), hsz, if_pos hlen]
    rw [nextObject, hstep]
    exact ⟨rfl, List.length_take_of_le hlen⟩

end Mp3Lib

namespace Mp3Cat

/-- C7 (counterexample): on a concrete rewrite (original content
`[1, 2, 3]`, synthesized header `[9, 9]`), the file-system state after
`os.Remove` and before `os.Rename` — step 3 of the rewrite — has nothing
at the canonical output path: the replacement is not atomic. -/
theorem addXingHeader_canonical_absent_cex :
    ((addXingHeaderTrace [1, 2, 3] [9, 9]).get? 3).map FsState.canonical = some none := by
  decide

/-- C7 (amended): the finalizer's rewrite writes the new content to the
temporary path, then **removes** the original, then renames the temporary
over the canonical path; the canonical path holds the original at every
step up to the remove, is absent between the remove and the rename, and
holds the new content after the rename; when the temporary-file write
fails the program aborts before the remove, so the original is still in
place. -/
theorem addXingHeader_rewrite_steps (orig xing written : List Nat) :
    ((addXingHeaderTrace orig xing).get? 3).map FsState.canonical = some none ∧
    (∀ i, i < 3 → ((addXingHeaderTrace orig xing).get? i).map FsState.canonical
      = some (some orig)) ∧
    ((addXingHeaderTrace orig xing).get? 4).map FsState.canonical
      = some (some (xing ++ orig)) ∧
    ((addXingHeaderTrace orig xing).get? 2).map FsState.tmp
      = some (some (xing ++ orig)) ∧
    (addXingHeaderWriteFailState orig written).canonical = some orig := by
  refine ⟨rfl, ?_, rfl, rfl, rfl⟩
  intro i hi
  interval_cases i <;> rfl

end Mp3Cat

namespace Mp3Lib

theorem nextFrame_none (s : List Nat) (h : nextObject s = none) : nextFrame s = none := by
  rw [nextFrame, h]

theorem nextFrame_frame (s : List Nat) (f : Mp3Frame) (r : List Nat)
    (h : nextObject s = some (.frame f, r)) : nextFrame s = some (f, r) := by
  rw [nextFrame, h]

theorem nextFrame_id3v1 (s : List Nat) (raw r : List Nat)
    (h : nextObject s = some (.id3v1 raw, r)) : nextFrame s = nextFrame r := by
  rw [nextFrame, h]

theorem nextFrame_id3v2 (s : List Nat) (raw r : List Nat)
    (h : nextObject s = some (.id3v2 raw, r)) : nextFrame s = nextFrame r := by
  rw [nextFrame, h]

theorem scanFrames_nil (s : List Nat) (h : nextFrame s = none) : scanFrames s = [] := by
  rw [scanFrames, h]

theorem scanFrames_cons (s : List Nat) (f : Mp3Frame) (r : List Nat)
    (h : nextFrame s = some (f, r)) : scanFrames s = f :: scanFrames r := by
  rw [scanFrames, h]

end Mp3Lib

namespace Mp3Lib

theorem nextObject_cons_garbage (b : Nat) (s : List Nat)
    (h1 : b ≠ 0xFF) (h2 : b ≠ 84) (h3 : b ≠ 73) :
    nextObject (b :: s) = nextObject s := by
  match s with
  | [] => rfl
  | [_] => rfl
  | [_, _] => rfl
  | x :: y :: z :: rest =>
    rw [nextObject]
    have hstep : scanStepAt b x y z (b :: x :: y :: z :: rest) = .shift := by
      unfold scanStepAt
      rw [if_neg (fun hc => h2 hc.1), if_neg (fun hc => h3 hc.1),
        if_neg (fun hc => h1 hc.1)]
    rw [hstep]

theorem goodGarbage_cons (b : Nat) (g : List Nat) (h : Spec.goodGarbage (b :: g) = true) :
    (b ≠ 0xFF ∧ b ≠ 84 ∧ b ≠ 73) ∧ Spec.goodGarbage g = true := by
  simp only [Spec.goodGarbage, List.all_cons, Bool.and_eq_true, decide_eq_true_eq] at h ⊢
  tauto

theorem nextObject_garbage_append (g s : List Nat) (hg : Spec.goodGarbage g = true) :
    nextObject (g ++ s) = nextObject s := by
  induction g with
  | nil => rfl
  | cons b g ih =>
    obtain ⟨⟨hb1, hb2, hb3⟩, hg'⟩ := goodGarbage_cons b g hg
    rw [List.cons_append, nextObject_cons_garbage b (g ++ s) hb1 hb2 hb3, ih hg']

end Mp3Lib

namespace Mp3Lib

theorem isWholeFrame_destruct (f : List Nat) (hf : Spec.isWholeFrame f = true) :
    ∃ b0 b1 b2 b3 body fr, f = b0 :: b1 :: b2 :: b3 :: body ∧
      b0 = 0xFF ∧ b1 &&& 0xE0 = 0xE0 ∧ parseHeader b1 b2 b3 = some fr ∧
      fr.frameLength = f.length ∧ Spec.frameOf f = { fr with rawBytes := f } := by
  match f with
  | [] => simp [Spec.isWholeFrame] at hf
  | [_] => simp [Spec.isWholeFrame] at hf
  | [_, _] => simp [Spec.isWholeFrame] at hf
  | [_, _, _] => simp [Spec.isWholeFrame] at hf
  | b0 :: b1 :: b2 :: b3 :: body =>
    simp only [Spec.isWholeFrame] at hf
    cases hp : parseHeader b1 b2 b3 with
    | none => rw [hp] at hf; simp at hf
    | some fr =>
      rw [hp] at hf
      simp only [Bool.and_eq_true, beq_iff_eq] at hf
      refine ⟨b0, b1, b2, b3, body, fr, rfl, hf.1.1, hf.1.2, hp, hf.2, ?_⟩
      simp only [Spec.frameOf]
      rw [hp]

theorem nextObject_whole_frame (f t : List Nat) (hf : Spec.isWholeFrame f = true) :
    nextObject (f ++ t) = some (.frame (Spec.frameOf f), t) := by
  obtain ⟨b0, b1, b2, b3, body, fr, rfl, hb0, hsync, hp, hlen, hof⟩ :=
    isWholeFrame_destruct f hf
  rw [hof]
  simp only [List.cons_append]
  rw [nextObject]
  have hstep : scanStepAt b0 b1 b2 b3 (b0 :: b1 :: b2 :: b3 :: (body ++ t))
      = .yield (.frame { fr with rawBytes := b0 :: b1 :: b2 :: b3 :: body }) t := by
    unfold scanStepAt
    rw [if_neg (fun hc => by rw [hb0] at hc; exact absurd hc.1 (by norm_num)),
      if_neg (fun hc => by rw [hb0] at hc; exact absurd hc.1 (by norm_num)),
      if_pos ⟨hb0, hsync⟩, hp]
    dsimp only
    have hle : fr.frameLength ≤ (b0 :: b1 :: b2 :: b3 :: (body ++ t)).length := by
      rw [hlen]
      simp only [List.length_cons, List.length_append]
      omega
    rw [if_pos hle]
    have htk : (b0 :: b1 :: b2 :: b3 :: (body ++ t)).take fr.frameLength
        = b0 :: b1 :: b2 :: b3 :: body := by
      rw [hlen]
      have : b0 :: b1 :: b2 :: b3 :: (body ++ t)
          = (b0 :: b1 :: b2 :: b3 :: body) ++ t := by simp
      rw [this, List.take_left]
    have hdr : (b0 :: b1 :: b2 :: b3 :: (body ++ t)).drop fr.frameLength = t := by
      rw [hlen]
      have : b0 :: b1 :: b2 :: b3 :: (body ++ t)
          = (b0 :: b1 :: b2 :: b3 :: body) ++ t := by simp
      rw [this, List.drop_left]
    rw [htk, hdr]
  rw [hstep]

end Mp3Lib

namespace Mp3Lib

theorem frameOf_rawBytes (f : List Nat) (hf : Spec.isWholeFrame f = true) :
    (Spec.frameOf f).rawBytes = f := by
  obtain ⟨b0, b1, b2, b3, body, fr, rfl, _, _, _, _, hof⟩ := isWholeFrame_destruct f hf
  rw [hof]

theorem scanFrames_garbage (g : List Nat) (hg : Spec.goodGarbage g = true) :
    scanFrames g = [] := by
  apply scanFrames_nil
  apply nextFrame_none
  have h := nextObject_garbage_append g [] hg
  rw [List.append_nil] at h
  rw [h]
  rfl

theorem scanFrames_interleaved (chunks : List (List Nat × List Nat)) (g0 : List Nat)
    (hg0 : Spec.goodGarbage g0 = true)
    (hc : ∀ c ∈ chunks, Spec.isWholeFrame c.1 = true ∧ Spec.goodGarbage c.2 = true) :
    scanFrames (Spec.interleaved g0 chunks) = chunks.map (fun c => Spec.frameOf c.1) := by
  induction chunks generalizing g0 with
  | nil =>
    unfold Spec.interleaved
    simp only [List.map_nil, List.flatten_nil, List.append_nil]
    exact scanFrames_garbage g0 hg0
  | cons c rest ih =>
    obtain ⟨hcf, hcg⟩ := hc c (by simp)
    have hrest : ∀ d ∈ rest, Spec.isWholeFrame d.1 = true ∧ Spec.goodGarbage d.2 = true :=
      fun d hd => hc d (by simp [hd])
    unfold Spec.interleaved
    simp only [List.map_cons, List.flatten_cons]
    have hre : g0 ++ ((c.1 ++ c.2) ++ (rest.map fun d => d.1 ++ d.2).flatten)
        = g0 ++ (c.1 ++ (c.2 ++ (rest.map fun d => d.1 ++ d.2).flatten)) := by
      simp [List.append_assoc]
    rw [hre]
    have hobj : nextObject (g0 ++ (c.1 ++ (c.2 ++ (rest.map fun d => d.1 ++ d.2).flatten)))
        = some (.frame (Spec.frameOf c.1), c.2 ++ (rest.map fun d => d.1 ++ d.2).flatten) := by
      rw [nextObject_garbage_append _ _ hg0]
      exact nextObject_whole_frame _ _ hcf
    rw [scanFrames_cons _ _ _ (nextFrame_frame _ _ _ hobj)]
    have := ih c.2 hcg hrest
    unfold Spec.interleaved at this
    rw [this]

/-- C9 (amended): a stream of whole valid frames interleaved with
garbage yields exactly those frames, in order and byte-identical to
scanning the garbage-free concatenation — provided no garbage byte is
0xFF, ASCII 'T' or ASCII 'I' (a byte that could start a frame sync,
"TAG" or "ID3" match; arbitrary garbage can spoof a frame header and
derail the scan, see the counterexample). -/
theorem scan_resync_garbage (g0 : List Nat) (chunks : List (List Nat × List Nat))
    (hg0 : Spec.goodGarbage g0 = true)
    (hc : ∀ c ∈ chunks, Spec.isWholeFrame c.1 = true ∧ Spec.goodGarbage c.2 = true) :
    scanFrames (Spec.interleaved g0 chunks) = scanFrames ((chunks.map Prod.fst).flatten) ∧
    (scanFrames ((chunks.map Prod.fst).flatten)).map Mp3Frame.rawBytes
      = chunks.map Prod.fst := by
  have hbare : ∀ d ∈ chunks.map (fun c => (c.1, ([] : List Nat))),
      Spec.isWholeFrame d.1 = true ∧ Spec.goodGarbage d.2 = true := by
    intro d hd
    rw [List.mem_map] at hd
    obtain ⟨c, hcmem, rfl⟩ := hd
    exact ⟨(hc c hcmem).1, rfl⟩
  have h1 := scanFrames_interleaved chunks g0 hg0 hc
  have h2 := scanFrames_interleaved (chunks.map fun c => (c.1, ([] : List Nat))) [] rfl hbare
  have he : Spec.interleaved [] (chunks.map fun c => (c.1, ([] : List Nat)))
      = (chunks.map Prod.fst).flatten := by
    unfold Spec.interleaved
    rw [List.nil_append, List.map_map]
    congr 1
    apply List.map_congr_left
    intro d _
    simp
  rw [he] at h2
  have hm : (chunks.map fun c => (c.1, ([] : List Nat))).map (fun c => Spec.frameOf c.1)
      = chunks.map (fun c => Spec.frameOf c.1) := by
    simp
  rw [hm] at h2
  refine ⟨h1.trans h2.symm, ?_⟩
  rw [h2, List.map_map]
  apply List.map_congr_left
  intro c hcmem
  exact frameOf_rawBytes c.1 (hc c hcmem).1

end Mp3Lib

namespace Mp3Lib

open Examples

/-- C9 (counterexample): one valid 24-byte frame preceded by the four
garbage bytes `FF FB 10 00` — themselves a plausible frame header
declaring a 104-byte frame — yields zero frames instead of one: the scan
locks onto the spoofed header, tries to read 104 bytes, hits end of
stream and gives up, so arbitrary garbage does not preserve the frame
sequence. -/
theorem scan_resync_garbage_cex :
    Spec.isWholeFrame tf24bytes = true ∧
    scanFrames ([255, 251, 16, 0] ++ tf24bytes) = [] ∧
    scanFrames tf24bytes = [tf24] := by
  refine ⟨by decide, ?_, ?_⟩
  · exact scanFrames_nil _ (nextFrame_none _ (by decide))
  · rw [scanFrames_cons _ tf24 [] (nextFrame_frame _ _ _ (by decide)),
      scanFrames_nil [] (nextFrame_none [] (by decide))]

/-- Witness for C1 at the concrete header `FF 14 00` (MPEG-1 Layer I,
32 kbps, 48 kHz). -/
theorem parseHeader_frameLength_spec_witness :
    (acceptFrame 0xFF 0x14 0x00).frameLength
      = Spec.specFrameLength (acceptFrame 0xFF 0x14 0x00).mpegVersion
          (acceptFrame 0xFF 0x14 0x00).mpegLayer (hdrBrIdx 0x14) (hdrSrIdx 0x14)
          (acceptFrame 0xFF 0x14 0x00).paddingBit :=
  (parseHeader_frameLength_spec 0xFF 0x14 0x00 (acceptFrame 0xFF 0x14 0x00) (by decide)).2.2.2.2

/-- Witness for C4 at the 64-byte Layer I template. -/
theorem newXingHeader_layout_witness :
    newXingHeaderP tf64 5 300 = some { tf64 with rawBytes := xingLayout tf64 5 300 } :=
  (newXingHeader_layout tf64 5 300 (by decide) (by decide)).1

/-- Witness for C5 at the 64-byte Layer I frame (long enough for both
detectors; neither signature present). -/
theorem vbr_detectors_classification_witness :
    isXingHeaderP tf64 = some false ∧ isVbriHeaderP tf64 = some false := by
  have h := vbr_detectors_classification tf64
  exact ⟨(h.1 (by decide)).trans (by decide), (h.2.2.1 (by decide)).trans (by decide)⟩

/-- Witness for C6 on a 12-byte stream: an ID3v2 header declaring size 2
followed by exactly 2 body bytes. -/
theorem id3v2_tag_exact_witness :
    nextObject [73, 68, 51, 4, 0, 0, 0, 0, 0, 2, 7, 8]
      = some (.id3v2 (([73, 68, 51, 4, 0, 0, 0, 0, 0, 2, 7, 8] : List Nat).take (10 + 2)),
          ([73, 68, 51, 4, 0, 0, 0, 0, 0, 2, 7, 8] : List Nat).drop (10 + 2)) ∧
    (([73, 68, 51, 4, 0, 0, 0, 0, 0, 2, 7, 8] : List Nat).take (10 + 2)).length = 10 + 2 :=
  id3v2_tag_exact [73, 68, 51, 4, 0, 0, 0, 0, 0, 2, 7, 8] 2
    (by decide) (by decide) (by decide) (by decide) (by decide) (by decide) (by decide)
    (by decide) (by decide)

/-- Witness for C9: the 64-byte frame wrapped in benign garbage bytes. -/
theorem scan_resync_garbage_witness :
    scanFrames (Spec.interleaved [1, 2] [(tf64bytes, [3])])
        = scanFrames (([(tf64bytes, [3])].map Prod.fst).flatten) ∧
    (scanFrames (([(tf64bytes, [3])].map Prod.fst).flatten)).map Mp3Frame.rawBytes
        = [(tf64bytes, [3])].map Prod.fst :=
  scan_resync_garbage [1, 2] [(tf64bytes, [3])] (by decide) (by decide)

end Mp3Lib

namespace Mp3Cat

open Mp3Lib Examples

/-- Witness for C2: one input holding the single 64-byte frame, starting
from the initial accumulator. -/
theorem mergeFiles_first_frame_discard_witness :
    ({ totalFrames := 1, totalBytes := 64, firstBitRate := 64000, isVBR := false,
        output := [tf64bytes] } : MergeState).output
      = initialMergeState.output ++ (retainedFrames [tf64]).map (fun f => f.rawBytes) :=
  (mergeFiles_first_frame_discard initialMergeState
    { totalFrames := 1, totalBytes := 64, firstBitRate := 64000, isVBR := false,
      output := [tf64bytes] } [tf64] (by decide)).1

/-- Witness for C3: a single input holding a 64 kbps frame followed by a
32 kbps frame — the baseline is set and contradicted within the same
input — ends the merge with the VBR flag raised. -/
theorem mergeFiles_vbr_flag_properties_witness :
    ({ totalFrames := 2, totalBytes := 96, firstBitRate := 64000, isVBR := true,
        output := [tf64bytes, tf32bytes] } : MergeState).isVBR = true :=
  mergeFiles_vbr_flag_properties.2.2.2.1 initialMergeState [tf64, tf32]
    { totalFrames := 2, totalBytes := 96, firstBitRate := 64000, isVBR := true,
      output := [tf64bytes, tf32bytes] } tf64 [] [tf32] tf32
    (by decide) (by decide) (by decide) (by decide) (by decide) (by decide) (by decide)

/-- Witness for C7 at concrete contents. -/
theorem addXingHeader_rewrite_steps_witness :
    ((addXingHeaderTrace [1, 2] [7]).get? 1).map FsState.canonical = some (some [1, 2]) :=
  (addXingHeader_rewrite_steps [1, 2] [7] [9]).2.1 1 (by decide)

end Mp3Cat
